import Mathlib

/-!
Formal model of `src/stream.py` (Regime Authoritarianism Explorer).

The program is a Streamlit dashboard over four flat files: a scores table,
a change log, a feedback log and a vote log.  This file gives a shallow
embedding of its pure logic:

* the filter/sort view (`filtered_df`, stream.py lines 48-51);
* the regex-based field extraction run by the two commit actions
  (stream.py lines 83-95 and 179-191);
* the commit actions themselves (lines 97-114 and 193-220);
* the change-log / feedback-log / vote-log line formats (lines 110-111,
  206-207, 216-217, 249-250, 253-255);
* the feedback viewer's vote-count computation (lines 227-244).

Numbers are modelled as `ℚ`: every numeric literal the extraction can
produce is a finite decimal, and the Python floats involved in the claims
represent such decimals exactly.  Strings are Lean `String`s; character
level work is done on `List Char` (Python strings are sequences of code
points, as are `String.data` lists).
-/

/-- One row of the scores table (`regime_scores.csv`), stream.py line 22. -/
structure RegimeRow where
  regime : String
  rai : ℚ
  ideo : ℚ
  hdr : ℚ
  pbr : ℚ
  deaths : String
  tagline : String
deriving DecidableEq, Repr

/-- The sort-field selector of the sidebar, stream.py line 42. -/
inductive SortBy where
  | RAI
  | IDEO
  | HDR
  | PBR
deriving DecidableEq, Repr

/-- The column a `SortBy` selection sorts on. -/
def sortKey : SortBy → RegimeRow → ℚ
  | SortBy.RAI, r => r.rai
  | SortBy.IDEO, r => r.ideo
  | SortBy.HDR, r => r.hdr
  | SortBy.PBR, r => r.pbr

/-- Comparison by a numeric key, the order `sort_values` sorts by. -/
def keyLE (k : RegimeRow → ℚ) (x y : RegimeRow) : Prop := k x ≤ k y

instance (k : RegimeRow → ℚ) : DecidableRel (keyLE k) :=
  fun x y => inferInstanceAs (Decidable (k x ≤ k y))

/-- `DataFrame.sort_values(by=key, ascending=False)` on a single column:
pandas `nargsort` computes an ascending argsort of the column and, for
`ascending=False`, reverses the whole indexer.  For the frame sizes in the
claims the underlying numpy argsort is an insertion sort, which is stable,
so the embedding is: stable ascending sort, then reverse. -/
def sort_values_desc (k : RegimeRow → ℚ) (rows : List RegimeRow) : List RegimeRow :=
  (List.insertionSort (keyLE k) rows).reverse

/-- The boolean mask of stream.py lines 49-50: both RAI and IDEO within
their selected closed intervals. -/
def boundsMask (a b c d : ℚ) (r : RegimeRow) : Bool :=
  decide (a ≤ r.rai ∧ r.rai ≤ b ∧ c ≤ r.ideo ∧ r.ideo ≤ d)

/-- `filtered_df` of stream.py lines 48-51: mask by the RAI range `[a,b]`
and the IDEO range `[c,d]`, then sort descending by the chosen field. -/
def filtered_df (a b c d : ℚ) (sb : SortBy) (rows : List RegimeRow) : List RegimeRow :=
  sort_values_desc (sortKey sb) (rows.filter (boundsMask a b c d))

/-!
## Extraction (stream.py lines 83-95 and 179-191)

The numeric fields are extracted with `re.search(label + r".*?(\d+(?:\.\d+)?)", text)`
(`-?` before `\d+` only in the IDEO pattern) and `float` applied to the
capture.  Python `re.search` semantics for these patterns: try each start
position left to right; at a start position the literal label must match,
then the lazy gap `.*?` (which cannot cross a newline, since `.` excludes
it) grows from the label's end until `-?\d+(?:\.\d+)?` matches; `\d+` is
greedy and the fractional part is taken when a dot with at least one digit
follows.  We model this directly on `List Char`.
-/

/-- Numeric value of a non-empty digit string under `float`. -/
def decOfDigits (ds : List Char) : ℚ :=
  (ds.foldl (fun acc c => 10 * acc + (c.toNat - 48)) 0 : ℕ)

/-- Value of the fractional digit string: `fracOfDigits "25" = 25/100`. -/
def fracOfDigits (fs : List Char) : ℚ :=
  (decOfDigits fs : ℚ) / (10 ^ fs.length : ℚ)

/-- Match `\d+(?:\.\d+)?` at the head of `s`: a greedy digit run, then an
optional `.` with a further greedy digit run, as a rational value. -/
def readUnsigned (s : List Char) : Option ℚ :=
  if (s.takeWhile Char.isDigit).isEmpty then none
  else
    match s.dropWhile Char.isDigit with
    | '.' :: r2 =>
        if (r2.takeWhile Char.isDigit).isEmpty then
          some (decOfDigits (s.takeWhile Char.isDigit))
        else
          some (decOfDigits (s.takeWhile Char.isDigit) +
            fracOfDigits (r2.takeWhile Char.isDigit))
    | _ => some (decOfDigits (s.takeWhile Char.isDigit))

/-- Match `-?\d+(?:\.\d+)?` (`\d+(?:\.\d+)?` when `neg = false`) at the
head of `s`.  A leading `-` is only consumed when `neg` and digits follow;
otherwise the match at this position fails and the caller's lazy gap moves
past the `-`. -/
def readNumAt (neg : Bool) (s : List Char) : Option ℚ :=
  match s with
  | [] => none
  | c :: rest =>
      if c = '-' then
        if neg then (readUnsigned rest).map (fun q => -q) else none
      else readUnsigned (c :: rest)

/-- The lazy gap after the label: try the number at each position, moving
right one non-newline character at a time; `.` cannot cross `'\n'`. -/
def scanNum (neg : Bool) : List Char → Option ℚ
  | [] => none
  | c :: rest =>
      if c = '\n' then none
      else
        match readNumAt neg (c :: rest) with
        | some q => some q
        | none => scanNum neg rest

/-- `re.search(label + r".*?(" ++ sign ++ r"\d+(?:\.\d+)?)", s)` as a value:
start positions are tried left to right; at a position where the literal
label matches, the lazy gap is scanned, and on failure later start
positions (hence later label occurrences) are tried. -/
def searchNum (label : List Char) (neg : Bool) : List Char → Option ℚ
  | [] => none
  | c :: rest =>
      if label.isPrefixOf (c :: rest) then
        match scanNum neg ((c :: rest).drop label.length) with
        | some q => some q
        | none => searchNum label neg rest
      else searchNum label neg rest

/-- Python `\s` on ASCII text. -/
def isPySpace (c : Char) : Bool :=
  c = ' ' || c = '\t' || c = '\n' || c = '\r' || c = '\x0b' || c = '\x0c'

/-- The lazy capture `(.*?)\\n` at the head of `s`: shortest run of
non-newline characters up to the literal two-character sequence
backslash-n.  (`\\n` in the Python raw-string pattern is a literal
backslash followed by `n`, NOT a line break.) -/
def findCapture : List Char → Option (List Char)
  | '\\' :: 'n' :: _ => some []
  | c :: rest =>
      if c = '\n' then none
      else (findCapture rest).map (fun cap => c :: cap)
  | [] => none

/-- Backtracking over the greedy `\s*`: try consuming `j` whitespace
characters, largest `j` first. -/
def tryWsDrop (s : List Char) : Nat → Option (List Char)
  | 0 => findCapture s
  | j + 1 =>
      match findCapture (s.drop (j + 1)) with
      | some cap => some cap
      | none => tryWsDrop s j

/-- After the literal `:` the pattern is `\s*(.*?)\\n`: greedy whitespace,
then the lazy capture. -/
def afterColon (s : List Char) : Option (List Char) :=
  tryWsDrop s (s.takeWhile isPySpace).length

/-- The lazy gap `.*?` before the literal `:`: try each `:` on the same
line in order, backtracking to the next one when the tail fails. -/
def scanColon : List Char → Option (List Char)
  | [] => none
  | c :: rest =>
      if c = ':' then
        match afterColon rest with
        | some cap => some cap
        | none => scanColon rest
      else if c = '\n' then none
      else scanColon rest

/-- Case-insensitive literal match of a pre-lowercased `label` at the head
of `s` (the patterns carry `re.IGNORECASE`). -/
def ciMatchesAt : List Char → List Char → Bool
  | [], _ => true
  | _ :: _, [] => false
  | a :: as, b :: bs => a == b.toLower && ciMatchesAt as bs

/-- `re.search(label + r".*?:\s*(.*?)\\n", s, re.IGNORECASE)`'s capture:
start positions left to right, case-insensitive label, then
`.*?:\s*(.*?)\\n` with backtracking as above. -/
def searchText (label : List Char) : List Char → Option (List Char)
  | [] => none
  | c :: rest =>
      if ciMatchesAt label (c :: rest) then
        match scanColon ((c :: rest).drop label.length) with
        | some cap => some cap
        | none => searchText label rest
      else searchText label rest

/-- Python `str.strip()`. -/
def pyStrip (s : List Char) : List Char :=
  ((s.dropWhile isPySpace).reverse.dropWhile isPySpace).reverse

/-- The fields extracted from one LLM reply (stream.py lines 83-95):
`rai`/`ideo`/`hdr`/`pbr` are `None` when their pattern finds no match,
`deaths`/`tagline` fall back to their defaults. -/
structure Extracted where
  rai : Option ℚ
  ideo : Option ℚ
  hdr : Option ℚ
  pbr : Option ℚ
  deaths : String
  tagline : String
deriving DecidableEq, Repr

/-- The extraction block shared by the chat commit (lines 83-95) and the
sidebar commit (lines 179-191).  Only the IDEO pattern allows a sign; the
`Estimated Deaths` and `tagline` patterns are case-insensitive and are
terminated by the literal characters backslash-n. -/
def extract (text : List Char) : Extracted where
  rai := searchNum ['R', 'A', 'I'] false text
  ideo := searchNum ['I', 'D', 'E', 'O'] true text
  hdr := searchNum ['H', 'D', 'R'] false text
  pbr := searchNum ['P', 'B', 'R'] false text
  deaths :=
    match searchText "estimated deaths".data text with
    | some cap => String.mk (pyStrip cap)
    | none => "Unknown"
  tagline :=
    match searchText "tagline".data text with
    | some cap => String.mk cap
    | none => "Generated by GPT"

/-!
## Commit actions (stream.py lines 97-114 and 193-220)

Both commit actions guard on `None not in (rai, ideo, hdr, pbr)`; on
success they append one row to the scores table (`pd.concat` + `to_csv`)
and append one formatted record to the change log, and display a success
message; the chat path displays nothing on failure (it has no `else`),
while the sidebar path displays an error.  The change-log f-string ends
in `\\n` — in Python source that is the literal two characters
backslash, n, not a line break.
-/

/-- Decimal digits of `rem / d` by long division (fuel-bounded; every
value `extract` can produce has a power-of-ten denominator, so the
division terminates well within the fuel with no trailing zeros —
matching Python float `repr` of an exact short decimal). -/
def fracDigitsNat : Nat → Nat → Nat → String
  | 0, _, _ => ""
  | fuel + 1, rem, d =>
      if rem = 0 then ""
      else toString (rem * 10 / d) ++ fracDigitsNat fuel (rem * 10 % d) d

/-- `f"{x}"` for a Python float holding the exact short decimal `q`:
sign, integer part, and at least one fractional digit (`85.0`, `-3.5`). -/
def pyFloatRepr (q : ℚ) : String :=
  let sign := if q.num < 0 then "-" else ""
  let n : ℕ := q.num.natAbs
  let ip : ℕ := n / q.den
  let rem : ℕ := n % q.den
  sign ++ toString ip ++ "." ++ (if rem = 0 then "0" else fracDigitsNat 30 rem q.den)

/-- `user_input.strip()[:40]` / `user_query.strip()[:40]`. -/
def strip40 (s : String) : String :=
  String.mk ((pyStrip s.data).take 40)

/-- The change-log record of stream.py lines 111 and 207:
`f"{now}, '{label}', RAI={rai}, IDEO={ideo}, HDR={hdr}, PBR={pbr}, Deaths={deaths}, Tagline='{tagline}'\\n"`.
The terminator is the literal two-character sequence backslash-n. -/
def mkLogRecord (ts label : String) (rai ideo hdr pbr : ℚ) (deaths tagline : String) : String :=
  ts ++ ", '" ++ label ++ "', RAI=" ++ pyFloatRepr rai ++ ", IDEO=" ++ pyFloatRepr ideo ++
    ", HDR=" ++ pyFloatRepr hdr ++ ", PBR=" ++ pyFloatRepr pbr ++ ", Deaths=" ++ deaths ++
    ", Tagline='" ++ tagline ++ "'" ++ "\\n"

/-- The new scores-table row built by a commit (lines 98-106 / 194-202). -/
def mkRow (label : String) (rai ideo hdr pbr : ℚ) (deaths tagline : String) : RegimeRow where
  regime := strip40 label
  rai := rai
  ideo := ideo
  hdr := hdr
  pbr := pbr
  deaths := deaths
  tagline := tagline

/-- The shared core of both commit actions: extract, and if all four
numeric fields are present produce the new row and the change-log record
(`None not in (rai, ideo, hdr, pbr)`, lines 97 / 193). -/
def commitCore (text : String) (label ts : String) : Option (RegimeRow × String) :=
  match (extract text.data).rai, (extract text.data).ideo,
      (extract text.data).hdr, (extract text.data).pbr with
  | some rai, some ideo, some hdr, some pbr =>
      some (mkRow label rai ideo hdr pbr (extract text.data).deaths (extract text.data).tagline,
            mkLogRecord ts (strip40 label) rai ideo hdr pbr
              (extract text.data).deaths (extract text.data).tagline)
  | _, _, _, _ => none

/-- The chat commit `➕ Add to Regime Table` (stream.py lines 82-114):
given the latest reply, the user's input, a timestamp, and the current
scores table and change log (as a record list), return the new table, the
new log, and the messages displayed.  On a missing numeric field nothing
is written and nothing is displayed (the block has no `else`). -/
def chatCommit (reply userInput ts : String) (table : List RegimeRow) (log : List String) :
    List RegimeRow × List String × List String :=
  match commitCore reply userInput ts with
  | some (row, rec) => (table ++ [row], log ++ [rec], ["Regime added to table."])
  | none => (table, log, [])

/-- The sidebar commit `➕ Add Regime to Table` (stream.py lines 178-220):
same writes, but on a missing numeric field it displays
`st.error("Could not parse all scores from GPT output.")` (line 220). -/
def sidebarCommit (result userQuery ts : String) (table : List RegimeRow) (log : List String) :
    List RegimeRow × List String × List String :=
  match commitCore result userQuery ts with
  | some (row, rec) => (table ++ [row], log ++ [rec], ["Regime added and saved to dataset."])
  | none => (table, log, ["Could not parse all scores from GPT output."])

/-!
## LLM call sites (stream.py lines 123-131 and 170-223)

The remote call is modelled by its outcome.  The conversational path
(lines 123-131) appends the user's turn to the transcript *before* the
call and wraps the call in no `try`: a failing call raises out of the
script with the user turn already appended.  The sidebar path wraps the
call (and everything after it) in `try ... except Exception as e:
st.sidebar.error(f"API call failed: {e}")` (lines 171-223).
-/

/-- Outcome of one remote chat-completion call. -/
inductive ApiResult where
  | ok (reply : String)
  | err (msg : String)
deriving DecidableEq, Repr

/-- A transcript message. -/
structure ChatMsg where
  role : String
  content : String
deriving DecidableEq, Repr

/-- The conversational turn of stream.py lines 118-131: append the user
turn, call the API (no `try`), and on success append the assistant turn.
The first component is the transcript when the script finishes or dies;
the second is `Except.error e` when the exception propagates uncaught. -/
def chatTurn (hist : List ChatMsg) (userInput : String) (res : ApiResult) :
    List ChatMsg × Except String String :=
  let hist1 := hist ++ [⟨"user", userInput⟩]
  match res with
  | ApiResult.ok reply => (hist1 ++ [⟨"assistant", reply⟩], Except.ok reply)
  | ApiResult.err e => (hist1, Except.error e)

/-- The sidebar analyze action of stream.py lines 170-223 as far as the
call outcome decides it: on failure the `except` arm displays
`"API call failed: " ++ e` and neither store is touched; no exception
escapes (the result is never `Except.error`). -/
def sidebarAnalyze (res : ApiResult) (table : List RegimeRow) (log : List String) :
    List RegimeRow × List String × Except String (List String) :=
  match res with
  | ApiResult.ok _ => (table, log, Except.ok [])
  | ApiResult.err e => (table, log, Except.ok ["API call failed: " ++ e])

/-!
## Vote and feedback logs (stream.py lines 215-217 and 225-256)

The vote log is written with a real `\n` (lines 250, 255); the feedback
log is written with the literal characters backslash-n (line 217).  The
viewer reads both with `pd.read_csv(..., header=None, names=[...])`:
each physical line is split on `,`; when a line has more fields than
names, pandas uses the leading extra fields as the index, so the named
columns are the *last* `len(names)` fields; when it has fewer, the
missing trailing columns are NaN and `groupby` (dropna) ignores them.
-/

/-- Split one physical line into its comma-separated fields. -/
def splitFields : List Char → List (List Char)
  | [] => [[]]
  | c :: rest =>
      if c = ',' then [] :: splitFields rest
      else
        match splitFields rest with
        | f :: fs => (c :: f) :: fs
        | [] => [[c]]

/-- The `(Regime, Vote)` key of one vote-log line under
`pd.read_csv(..., names=["Timestamp", "Regime", "Vote"])` +
`groupby(["Regime", "Vote"])`: with at least three fields the named
columns are the last two; with fewer the Vote column is NaN and the
line falls out of the groupby. -/
def voteKeyL (l : List Char) : Option (List Char × List Char) :=
  let fs := splitFields l
  if fs.length < 3 then none
  else
    match fs.dropLast.getLast?, fs.getLast? with
    | some r, some v => some (r, v)
    | _, _ => none

/-- `voteKeyL` on a `String` line. -/
def voteKey (l : String) : Option (List Char × List Char) :=
  voteKeyL l.data

/-- Does one vote-log line parse to regime `regime` and direction `dir`? -/
def lineMatches (regime dir : String) (l : String) : Bool :=
  decide (voteKey l = some (regime.data, dir.data))

/-- Does one vote-log line parse to direction `dir` (any regime)?  The
`unstack` column `dir` exists iff some line does. -/
def dirPresent (dir : String) (l : String) : Bool :=
  decide ((voteKey l).map Prod.snd = some dir.data)

/-- The number of vote-log lines whose parsed regime field is exactly
`regime` and whose parsed vote field is exactly `dir`: the claim's
right-hand side. -/
def matchCount (lines : List String) (regime dir : String) : Nat :=
  (lines.filter (lineMatches regime dir)).length

/-- `vote_counts.get(dir, {}).get(regime, 0)` of stream.py lines 233 and
242-243: the `unstack` column `dir` exists iff some grouped line has vote
field `dir`; absent column (or absent regime row) yields `0`. -/
def renderedCount (file : Option (List String)) (regime dir : String) : Nat :=
  match file with
  | none => 0
  | some lines =>
      if lines.any (dirPresent dir) then matchCount lines regime dir
      else 0

/-- The vote-log line body appended by the upvote/downvote buttons
(stream.py lines 250, 255): `f"{now},'{regime}','{dir}'\n"`, a real
newline, so one new physical line whose regime field carries an extra
pair of quote characters. -/
def voteLineBody (ts regime dir : String) : String :=
  ts ++ ",'" ++ regime ++ "','" ++ dir ++ "'"

/-- The feedback-log record of stream.py line 217:
`f"{now}, '{query}', '{rating}', '{notes}'\\n"` — comma-separated with a
literal backslash-n terminator. -/
def mkFeedbackLine (ts regime rating notes : String) : String :=
  ts ++ ", '" ++ regime ++ "', '" ++ rating ++ "', '" ++ notes ++ "'" ++ "\\n"

/-- The `Comments` column of one feedback line under
`pd.read_csv(..., names=["Timestamp", "Regime", "Rating", "Comments"])`:
with at least four fields the named columns are the last four, so
`Comments` is the last field. -/
def feedbackComments (l : String) : Option (List Char) :=
  let fs := splitFields l.data
  if fs.length < 4 then none else fs.getLast?

/-- The example reply of spec.md §8.7: each field on its own line,
followed by a real line break. -/
def exampleReply : String :=
  "RAI: 85\nIDEO: 7\nHDR: 9\nPBR: 8\nEstimated Deaths: 500000\nTagline: Iron Fist\n"

/-- The same reply with every mention of PBR removed. -/
def exampleReplyNoPBR : String :=
  "RAI: 85\nIDEO: 7\nHDR: 9\nEstimated Deaths: 500000\nTagline: Iron Fist\n"

/-!
## Theorems
-/

lemma mem_sort_values_desc (k : RegimeRow → ℚ) (rows : List RegimeRow) (r : RegimeRow) :
    r ∈ sort_values_desc k rows ↔ r ∈ rows := by
  unfold sort_values_desc
  rw [List.mem_reverse]
  exact (List.perm_insertionSort _ _).mem_iff

/-- Claim C1: a row is in the filtered result exactly when it is a row of
the table with `a ≤ RAI ≤ b` and `c ≤ IDEO ≤ d`; in particular every
result row satisfies the bounds and no out-of-bounds table row appears. -/
theorem C1_filter_bounds (a b c d : ℚ) (sb : SortBy) (rows : List RegimeRow) (r : RegimeRow) :
    r ∈ filtered_df a b c d sb rows ↔
      r ∈ rows ∧ a ≤ r.rai ∧ r.rai ≤ b ∧ c ≤ r.ideo ∧ r.ideo ≤ d := by
  unfold filtered_df
  rw [mem_sort_values_desc, List.mem_filter]
  simp [boundsMask]

instance (k : RegimeRow → ℚ) : IsTotal RegimeRow (keyLE k) :=
  ⟨fun x y => le_total (k x) (k y)⟩

instance (k : RegimeRow → ℚ) : IsTrans RegimeRow (keyLE k) :=
  ⟨fun _ _ _ h1 h2 => le_trans h1 h2⟩

/-- Claim C2 (amended): the filtered result is sorted descending by the
chosen field — each row's sort value is ≥ the next row's. -/
theorem C2_sorted_descending (a b c d : ℚ) (sb : SortBy) (rows : List RegimeRow) :
    (filtered_df a b c d sb rows).Chain' (fun x y => sortKey sb y ≤ sortKey sb x) := by
  have hs : List.Sorted (keyLE (sortKey sb))
      (List.insertionSort (keyLE (sortKey sb)) (rows.filter (boundsMask a b c d))) :=
    List.sorted_insertionSort _ _
  have hp : (filtered_df a b c d sb rows).Pairwise
      (fun x y => sortKey sb y ≤ sortKey sb x) := by
    unfold filtered_df sort_values_desc
    rw [List.pairwise_reverse]
    exact hs
  exact hp.chain'

/-- Claim C2 counterexample: two in-bounds rows tied on the sort field
come back in reversed input order (pandas reverses an ascending argsort
for a descending sort), so ties do not retain input order. -/
theorem C2_ties_reversed_counterexample :
    filtered_df 0 100 (-10) 10 SortBy.RAI
        [⟨"A", 50, 0, 1, 1, "Unknown", "t"⟩, ⟨"B", 50, 0, 2, 2, "Unknown", "t"⟩] =
      [⟨"B", 50, 0, 2, 2, "Unknown", "t"⟩, ⟨"A", 50, 0, 1, 1, "Unknown", "t"⟩] ∧
    (⟨"A", 50, 0, 1, 1, "Unknown", "t"⟩ : RegimeRow) ≠
      ⟨"B", 50, 0, 2, 2, "Unknown", "t"⟩ := by
  constructor
  · decide
  · decide

/-- Claim C7 (amended): the sidebar call site catches a failed call and
renders `API call failed: …` with both stores untouched, but the chat
call site has no handler — the failure propagates as an uncaught
exception, after the user's turn was already appended to the transcript. -/
theorem C7_call_failure_handling (hist : List ChatMsg) (u e : String)
    (table : List RegimeRow) (log : List String) :
    chatTurn hist u (ApiResult.err e) = (hist ++ [⟨"user", u⟩], Except.error e) ∧
    sidebarAnalyze (ApiResult.err e) table log =
      (table, log, Except.ok ["API call failed: " ++ e]) :=
  ⟨rfl, rfl⟩

/-- Claim C7 counterexample: at a concrete failing chat call the outcome
is an uncaught `Except.error` (not a displayed message) and the
transcript is no longer what it was before the interaction. -/
theorem C7_chat_uncaught_counterexample :
    (chatTurn [] "hi" (ApiResult.err "boom")).2 = Except.error "boom" ∧
    (chatTurn [] "hi" (ApiResult.err "boom")).1 ≠ [] := by
  constructor
  · rfl
  · decide

lemma commitCore_none (reply u ts : String)
    (h : (extract reply.data).rai = none ∨ (extract reply.data).ideo = none ∨
         (extract reply.data).hdr = none ∨ (extract reply.data).pbr = none) :
    commitCore reply u ts = none := by
  unfold commitCore
  rcases hrai : (extract reply.data).rai with _ | rai <;>
    rcases hideo : (extract reply.data).ideo with _ | ideo <;>
      rcases hhdr : (extract reply.data).hdr with _ | hdr <;>
        rcases hpbr : (extract reply.data).pbr with _ | pbr <;>
          simp_all

/-- Claim C3 (amended): when any of the four numeric fields is absent
from the reply, neither commit action appends a row or a log record, and
both leave the stores exactly as they were; the sidebar commit reports
the failure, but the chat commit displays nothing (its block has no
`else`). -/
theorem C3_missing_field_no_write (reply u ts : String)
    (table : List RegimeRow) (log : List String)
    (h : (extract reply.data).rai = none ∨ (extract reply.data).ideo = none ∨
         (extract reply.data).hdr = none ∨ (extract reply.data).pbr = none) :
    chatCommit reply u ts table log = (table, log, []) ∧
    sidebarCommit reply u ts table log =
      (table, log, ["Could not parse all scores from GPT output."]) := by
  have hc := commitCore_none reply u ts h
  constructor
  · unfold chatCommit
    rw [hc]
  · unfold sidebarCommit
    rw [hc]

/-- Witness for C3: the example reply shorn of its PBR line has no PBR
match, so both commits leave the stores unchanged and only the sidebar
commit displays anything. -/
theorem C3_missing_field_no_write_witness :
    chatCommit exampleReplyNoPBR "Query" "TS" [] [] = ([], [], []) ∧
    sidebarCommit exampleReplyNoPBR "Query" "TS" [] [] =
      ([], [], ["Could not parse all scores from GPT output."]) :=
  C3_missing_field_no_write exampleReplyNoPBR "Query" "TS" [] []
    (Or.inr (Or.inr (Or.inr (by decide))))

lemma commitCore_some (reply u ts : String) (rai ideo hdr pbr : ℚ)
    (h1 : (extract reply.data).rai = some rai)
    (h2 : (extract reply.data).ideo = some ideo)
    (h3 : (extract reply.data).hdr = some hdr)
    (h4 : (extract reply.data).pbr = some pbr) :
    commitCore reply u ts =
      some (mkRow u rai ideo hdr pbr (extract reply.data).deaths (extract reply.data).tagline,
            mkLogRecord ts (strip40 u) rai ideo hdr pbr
              (extract reply.data).deaths (extract reply.data).tagline) := by
  unfold commitCore
  rw [h1, h2, h3, h4]

/-- Claim C4 (amended): a well-formed reply makes either commit action
append exactly one row to the scores table and exactly one record to the
change log, in the documented format — except that the record is
terminated by the literal two characters backslash, `n` (the Python
f-string ends in `\\n`), not by a line break. -/
theorem C4_commit_appends_one (reply u ts : String)
    (table : List RegimeRow) (log : List String) (rai ideo hdr pbr : ℚ)
    (h1 : (extract reply.data).rai = some rai)
    (h2 : (extract reply.data).ideo = some ideo)
    (h3 : (extract reply.data).hdr = some hdr)
    (h4 : (extract reply.data).pbr = some pbr) :
    chatCommit reply u ts table log =
      (table ++ [mkRow u rai ideo hdr pbr (extract reply.data).deaths (extract reply.data).tagline],
       log ++ [mkLogRecord ts (strip40 u) rai ideo hdr pbr
                 (extract reply.data).deaths (extract reply.data).tagline],
       ["Regime added to table."]) ∧
    sidebarCommit reply u ts table log =
      (table ++ [mkRow u rai ideo hdr pbr (extract reply.data).deaths (extract reply.data).tagline],
       log ++ [mkLogRecord ts (strip40 u) rai ideo hdr pbr
                 (extract reply.data).deaths (extract reply.data).tagline],
       ["Regime added and saved to dataset."]) ∧
    (mkLogRecord ts (strip40 u) rai ideo hdr pbr
        (extract reply.data).deaths (extract reply.data).tagline).data.reverse.take 2 =
      ['n', '\\'] := by
  have hc := commitCore_some reply u ts rai ideo hdr pbr h1 h2 h3 h4
  refine ⟨?_, ?_, ?_⟩
  · unfold chatCommit
    rw [hc]
  · unfold sidebarCommit
    rw [hc]
  · unfold mkLogRecord
    simp [String.data_append]

/-- Witness for C4: committing the §8.7 example reply appends one row and
one backslash-n-terminated record. -/
theorem C4_commit_appends_one_witness :
    chatCommit exampleReply "Test" "TS" [] [] =
      ([] ++ [mkRow "Test" 85 7 9 8 (extract exampleReply.data).deaths
                (extract exampleReply.data).tagline],
       [] ++ [mkLogRecord "TS" (strip40 "Test") 85 7 9 8 (extract exampleReply.data).deaths
                (extract exampleReply.data).tagline],
       ["Regime added to table."]) ∧
    sidebarCommit exampleReply "Test" "TS" [] [] =
      ([] ++ [mkRow "Test" 85 7 9 8 (extract exampleReply.data).deaths
                (extract exampleReply.data).tagline],
       [] ++ [mkLogRecord "TS" (strip40 "Test") 85 7 9 8 (extract exampleReply.data).deaths
                (extract exampleReply.data).tagline],
       ["Regime added and saved to dataset."]) ∧
    (mkLogRecord "TS" (strip40 "Test") 85 7 9 8 (extract exampleReply.data).deaths
        (extract exampleReply.data).tagline).data.reverse.take 2 = ['n', '\\'] :=
  C4_commit_appends_one exampleReply "Test" "TS" [] [] 85 7 9 8
    (by decide) (by decide) (by decide) (by decide)

/-- Claim C4 counterexample: the record appended by a concrete commit
ends in the character `n` preceded by a backslash — its last character is
not a line break, so the change-log line is not terminated by one. -/
theorem C4_log_terminator_counterexample :
    ((chatCommit exampleReply "Test" "TS" [] []).2.1.map
        (fun r => r.data.getLast?)) = [some 'n'] ∧
    ('n' : Char) ≠ '\n' := by
  constructor
  · decide
  · decide

lemma renderedCount_eq (lines : List String) (regime dir : String) :
    renderedCount (some lines) regime dir = matchCount lines regime dir := by
  show (if lines.any (dirPresent dir) then matchCount lines regime dir else 0) =
    matchCount lines regime dir
  split
  · rfl
  · next hany =>
    symm
    unfold matchCount
    rw [List.length_eq_zero, List.filter_eq_nil_iff]
    intro l hl hbeq
    apply hany
    rw [List.any_eq_true]
    refine ⟨l, hl, ?_⟩
    have hk : voteKey l = some (regime.data, dir.data) := by
      simpa [lineMatches] using hbeq
    unfold dirPresent
    rw [hk]
    simp

/-- Claim C8: the rendered upvote (resp. downvote) count for a feedback
row equals the number of vote-log lines whose parsed regime field equals
the row's regime field and whose parsed vote field is `Upvote` (resp.
`Downvote`); with the vote log absent every rendered count is zero. -/
theorem C8_vote_counts (lines : List String) (regime : String) :
    renderedCount (some lines) regime "Upvote" = matchCount lines regime "Upvote" ∧
    renderedCount (some lines) regime "Downvote" = matchCount lines regime "Downvote" ∧
    renderedCount none regime "Upvote" = 0 ∧
    renderedCount none regime "Downvote" = 0 :=
  ⟨renderedCount_eq lines regime "Upvote", renderedCount_eq lines regime "Downvote",
   rfl, rfl⟩

lemma splitFields_ne_nil (s : List Char) : splitFields s ≠ [] := by
  induction s with
  | nil => simp [splitFields]
  | cons c rest ih =>
      unfold splitFields
      split
      · simp
      · cases h : splitFields rest with
        | nil => simp
        | cons f fs => simp

lemma splitFields_cons_comma (rest : List Char) :
    splitFields (',' :: rest) = [] :: splitFields rest := by
  rw [splitFields]
  simp

lemma splitFields_cons_ne (c : Char) (rest : List Char) (h : c ≠ ',')
    (f : List Char) (fs : List (List Char)) (hrest : splitFields rest = f :: fs) :
    splitFields (c :: rest) = (c :: f) :: fs := by
  unfold splitFields
  rw [if_neg h, hrest]

lemma splitFields_cons_exists (s : List Char) :
    ∃ f fs, splitFields s = f :: fs := by
  cases h : splitFields s with
  | nil => exact absurd h (splitFields_ne_nil s)
  | cons f fs => exact ⟨f, fs, rfl⟩

lemma splitFields_length (s : List Char) :
    (splitFields s).length = s.count ',' + 1 := by
  induction s with
  | nil => simp [splitFields]
  | cons c rest ih =>
      by_cases h : c = ','
      · subst h
        rw [splitFields_cons_comma]
        simp [List.count_cons, ih]
      · obtain ⟨f, fs, hrest⟩ := splitFields_cons_exists rest
        rw [splitFields_cons_ne c rest h f fs hrest]
        have hlen : fs.length + 1 = rest.count ',' + 1 := by
          rw [← ih, hrest]
          simp
        have hcnt : (c :: rest).count ',' = rest.count ',' := by
          simp [List.count_cons, Ne.symm h]
        rw [hcnt]
        simp only [List.length_cons]
        omega

lemma splitFields_pure (t : List Char) (ht : ',' ∉ t) : splitFields t = [t] := by
  induction t with
  | nil => rfl
  | cons c rest ih =>
      have hc : c ≠ ',' := fun h => ht (by simp [h])
      have hrest : ',' ∉ rest := fun h => ht (List.mem_cons_of_mem _ h)
      exact splitFields_cons_ne c rest hc rest [] (ih hrest)

lemma splitFields_getLast_append (xs t : List Char) (ht : ',' ∉ t) :
    (splitFields (xs ++ ',' :: t)).getLast? = some t := by
  induction xs with
  | nil =>
      rw [List.nil_append, splitFields_cons_comma, splitFields_pure t ht]
      rfl
  | cons c xs ih =>
      by_cases h : c = ','
      · subst h
        rw [List.cons_append, splitFields_cons_comma]
        obtain ⟨f, fs, hrest⟩ := splitFields_cons_exists (xs ++ ',' :: t)
        rw [hrest, List.getLast?_cons_cons, ← hrest, ih]
      · obtain ⟨f, fs, hrest⟩ := splitFields_cons_exists (xs ++ ',' :: t)
        rw [List.cons_append, splitFields_cons_ne c _ h f fs hrest]
        cases fs with
        | nil =>
            exfalso
            have hlen := splitFields_length (xs ++ ',' :: t)
            rw [hrest] at hlen
            have hmem : (',' : Char) ∈ xs ++ ',' :: t := by simp
            have hpos : 0 < (xs ++ ',' :: t).count ',' := List.count_pos_iff.mpr hmem
            simp only [List.length_cons, List.length_nil] at hlen
            omega
        | cons f2 fs2 =>
            rw [List.getLast?_cons_cons]
            have h2 : (splitFields (xs ++ ',' :: t)).getLast? = (f2 :: fs2).getLast? := by
              rw [hrest, List.getLast?_cons_cons]
            rw [← h2, ih]

lemma voteLineBody_data (ts regime dir : String) :
    (voteLineBody ts regime dir).data =
      (ts.data ++ ',' :: '\'' :: regime.data ++ ['\'']) ++
        ',' :: ('\'' :: (dir.data ++ ['\''])) := by
  simp [voteLineBody, String.data_append]

lemma voteKey_voteLineBody (ts regime dir : String) (hdir : ',' ∉ dir.data) :
    ∃ r, voteKey (voteLineBody ts regime dir) =
      some (r, '\'' :: (dir.data ++ ['\''])) := by
  have hd := voteLineBody_data ts regime dir
  set xs := ts.data ++ ',' :: '\'' :: regime.data ++ ['\''] with hxs
  set t := '\'' :: (dir.data ++ ['\'']) with htdef
  have ht : ',' ∉ t := by
    intro hmem
    rcases List.mem_cons.mp hmem with h | h
    · exact absurd h (by decide)
    · rcases List.mem_append.mp h with h | h
      · exact hdir h
      · simp at h
  have hlast : (splitFields (voteLineBody ts regime dir).data).getLast? = some t := by
    rw [hd]
    exact splitFields_getLast_append xs t ht
  have hlen : ¬ (splitFields (voteLineBody ts regime dir).data).length < 3 := by
    rw [hd, splitFields_length]
    have hx : (0 : ℕ) < xs.count ',' := by
      apply List.count_pos_iff.mpr
      rw [hxs]
      simp
    rw [List.count_append]
    simp [List.count_cons]
    omega
  obtain ⟨r, hr⟩ : ∃ r, (splitFields (voteLineBody ts regime dir).data).dropLast.getLast? = some r := by
    have hne : (splitFields (voteLineBody ts regime dir).data).dropLast ≠ [] := by
      intro hnil
      have := congrArg List.length hnil
      rw [List.length_dropLast] at this
      simp at this
      omega
    exact Option.isSome_iff_exists.mp (List.getLast?_isSome.mpr hne)
  refine ⟨r, ?_⟩
  unfold voteKey voteKeyL
  rw [if_neg hlen, hr, hlast]

lemma renderedCount_append_mismatch (lines : List String) (l regime d2 : String)
    (h : ∀ x, voteKey l ≠ some (x, d2.data)) :
    renderedCount (some (lines ++ [l])) regime d2 =
      renderedCount (some lines) regime d2 := by
  have hp : dirPresent d2 l = false := by
    unfold dirPresent
    rw [decide_eq_false_iff_not]
    intro hmap
    cases hk : voteKey l with
    | none => rw [hk] at hmap; simp at hmap
    | some p =>
        rw [hk] at hmap
        simp at hmap
        exact h p.1 (by rw [hk]; cases p; simp_all)
  have hq : lineMatches regime d2 l = false := by
    unfold lineMatches
    rw [decide_eq_false_iff_not]
    exact fun hh => h regime.data hh
  simp only [renderedCount, matchCount]
  rw [List.any_append, List.filter_append]
  simp [hp, hq]

lemma vote_append_preserves (lines : List String) (regime ts dir d2 : String)
    (hdir : ',' ∉ dir.data)
    (hne : ('\'' :: (dir.data ++ ['\''])) ≠ d2.data) :
    renderedCount (some (lines ++ [voteLineBody ts regime dir])) regime d2 =
      renderedCount (some lines) regime d2 := by
  apply renderedCount_append_mismatch
  intro x hx
  obtain ⟨r, hk⟩ := voteKey_voteLineBody ts regime dir hdir
  rw [hk] at hx
  exact hne (congrArg Prod.snd (Option.some.inj hx))

/-- Claim C9: the vote buttons write the row's regime wrapped in an extra
pair of quote characters — a string never equal to the row's own parsed
regime field — and the appended line's parsed vote field is the quoted
`'Upvote'`/`'Downvote'`, so re-reading the log leaves the row's rendered
upvote and downvote tallies exactly as they were.  (The hypotheses say
the regime field and the timestamp contain no newline, which is what
makes the one appended write one physical line.) -/
theorem C9_vote_self_mismatch (lines : List String) (regime ts : String)
    (_hr : '\n' ∉ regime.data) (_ht : '\n' ∉ ts.data) :
    ("'" ++ regime ++ "'") ≠ regime ∧
    (renderedCount (some (lines ++ [voteLineBody ts regime "Upvote"])) regime "Upvote" =
      renderedCount (some lines) regime "Upvote") ∧
    (renderedCount (some (lines ++ [voteLineBody ts regime "Upvote"])) regime "Downvote" =
      renderedCount (some lines) regime "Downvote") ∧
    (renderedCount (some (lines ++ [voteLineBody ts regime "Downvote"])) regime "Upvote" =
      renderedCount (some lines) regime "Upvote") ∧
    (renderedCount (some (lines ++ [voteLineBody ts regime "Downvote"])) regime "Downvote" =
      renderedCount (some lines) regime "Downvote") := by
  refine ⟨?_, ?_, ?_, ?_, ?_⟩
  · intro hcontra
    have hlen := congrArg String.length hcontra
    rw [String.length_append, String.length_append] at hlen
    have h1 : ("'" : String).length = 1 := rfl
    omega
  · exact vote_append_preserves lines regime ts "Upvote" "Upvote" (by decide) (by decide)
  · exact vote_append_preserves lines regime ts "Upvote" "Downvote" (by decide) (by decide)
  · exact vote_append_preserves lines regime ts "Downvote" "Upvote" (by decide) (by decide)
  · exact vote_append_preserves lines regime ts "Downvote" "Downvote" (by decide) (by decide)

/-- Witness for C9 at a concrete row and empty prior log. -/
theorem C9_vote_self_mismatch_witness :
    ("'" ++ "Test State" ++ "'") ≠ "Test State" ∧
    (renderedCount (some ([] ++ [voteLineBody "2025-01-01 00:00:00" "Test State" "Upvote"]))
        "Test State" "Upvote" =
      renderedCount (some []) "Test State" "Upvote") ∧
    (renderedCount (some ([] ++ [voteLineBody "2025-01-01 00:00:00" "Test State" "Upvote"]))
        "Test State" "Downvote" =
      renderedCount (some []) "Test State" "Downvote") ∧
    (renderedCount (some ([] ++ [voteLineBody "2025-01-01 00:00:00" "Test State" "Downvote"]))
        "Test State" "Upvote" =
      renderedCount (some []) "Test State" "Upvote") ∧
    (renderedCount (some ([] ++ [voteLineBody "2025-01-01 00:00:00" "Test State" "Downvote"]))
        "Test State" "Downvote" =
      renderedCount (some []) "Test State" "Downvote") :=
  C9_vote_self_mismatch [] "Test State" "2025-01-01 00:00:00" (by decide) (by decide)

/-- Claim C10: a feedback comment containing a comma produces a log line
of five comma-separated fields — more than the four named columns — and
the viewer's `Comments` column does not recover the submitted comment. -/
theorem C10_feedback_comma_roundtrip :
    4 < (splitFields (mkFeedbackLine "2025-01-01 00:00:00" "Regime X" "Good"
          "Too harsh, but fair").data).length ∧
    feedbackComments (mkFeedbackLine "2025-01-01 00:00:00" "Regime X" "Good"
        "Too harsh, but fair") ≠ some "Too harsh, but fair".data := by
  constructor
  · decide
  · decide

lemma takeWhile_isDigit_all (d : List Char) (h : ∀ c ∈ d, c.isDigit = true) :
    d.takeWhile Char.isDigit = d := by
  induction d with
  | nil => rfl
  | cons c rest ih =>
      have hc := h c (List.mem_cons_self c rest)
      have ht := ih (fun x hx => h x (List.mem_cons_of_mem c hx))
      simp [List.takeWhile_cons, hc, ht]

lemma dropWhile_isDigit_all (d : List Char) (h : ∀ c ∈ d, c.isDigit = true) :
    d.dropWhile Char.isDigit = [] := by
  induction d with
  | nil => rfl
  | cons c rest ih =>
      have hc := h c (List.mem_cons_self c rest)
      have ht := ih (fun x hx => h x (List.mem_cons_of_mem c hx))
      simp [List.dropWhile_cons, hc, ht]

lemma readUnsigned_digits (d : List Char) (hne : d ≠ [])
    (h : ∀ c ∈ d, c.isDigit = true) :
    readUnsigned d = some (decOfDigits d) := by
  have ht := takeWhile_isDigit_all d h
  have hd := dropWhile_isDigit_all d h
  cases d with
  | nil => exact absurd rfl hne
  | cons c rest =>
      unfold readUnsigned
      rw [ht, hd]
      simp

lemma readUnsigned_head_nondigit (c : Char) (rest : List Char)
    (h : c.isDigit = false) :
    readUnsigned (c :: rest) = none := by
  unfold readUnsigned
  rw [List.takeWhile_cons, h]
  simp

lemma readUnsigned_no_digit (s : List Char) (h : ∀ c ∈ s, c.isDigit = false) :
    readUnsigned s = none := by
  cases s with
  | nil => rfl
  | cons c rest => exact readUnsigned_head_nondigit c rest (h c (List.mem_cons_self c rest))

lemma readNumAt_no_digit (neg : Bool) (s : List Char)
    (h : ∀ c ∈ s, c.isDigit = false) :
    readNumAt neg s = none := by
  cases s with
  | nil => rfl
  | cons c rest =>
      simp only [readNumAt]
      by_cases hc : c = '-'
      · rw [if_pos hc]
        have hrest : readUnsigned rest = none :=
          readUnsigned_no_digit rest (fun x hx => h x (List.mem_cons_of_mem c hx))
        cases neg <;> simp [hrest]
      · rw [if_neg hc]
        exact readUnsigned_no_digit (c :: rest) h

lemma scanNum_no_digit (neg : Bool) (s : List Char)
    (h : ∀ c ∈ s, c.isDigit = false) :
    scanNum neg s = none := by
  induction s with
  | nil => rfl
  | cons c rest ih =>
      simp only [scanNum]
      split
      · rfl
      · rw [readNumAt_no_digit neg _ h]
        exact ih (fun x hx => h x (List.mem_cons_of_mem c hx))

lemma searchNum_no_digit (label : List Char) (neg : Bool) (s : List Char)
    (h : ∀ c ∈ s, c.isDigit = false) :
    searchNum label neg s = none := by
  induction s with
  | nil => rfl
  | cons c rest ih =>
      have hrest : ∀ x ∈ rest, x.isDigit = false :=
        fun x hx => h x (List.mem_cons_of_mem c hx)
      simp only [searchNum]
      split
      · rw [scanNum_no_digit neg _ (fun x hx => h x (List.mem_of_mem_drop hx))]
        exact ih hrest
      · exact ih hrest

lemma readNumAt_head_skip (neg : Bool) (c : Char) (rest : List Char)
    (h1 : c ≠ '-') (h2 : c.isDigit = false) :
    readNumAt neg (c :: rest) = none := by
  simp only [readNumAt]
  rw [if_neg h1]
  exact readUnsigned_head_nondigit c rest h2

lemma scanNum_skip (neg : Bool) (c : Char) (rest : List Char)
    (h1 : c ≠ '\n') (h2 : readNumAt neg (c :: rest) = none) :
    scanNum neg (c :: rest) = scanNum neg rest := by
  simp only [scanNum]
  rw [if_neg h1, h2]

lemma scanNum_digits (neg : Bool) (d : List Char) (hne : d ≠ [])
    (h : ∀ c ∈ d, c.isDigit = true) :
    scanNum neg d = some (decOfDigits d) := by
  cases d with
  | nil => exact absurd rfl hne
  | cons c rest =>
      have hc := h c (List.mem_cons_self c rest)
      have hcn : c ≠ '\n' := by
        intro e
        rw [e] at hc
        exact absurd hc (by decide)
      have hcd : c ≠ '-' := by
        intro e
        rw [e] at hc
        exact absurd hc (by decide)
      simp only [scanNum]
      rw [if_neg hcn]
      have hr : readNumAt neg (c :: rest) = some (decOfDigits (c :: rest)) := by
        simp only [readNumAt]
        rw [if_neg hcd]
        exact readUnsigned_digits (c :: rest) (by simp) h
      rw [hr]

lemma readNumAt_dash_false (d : List Char) : readNumAt false ('-' :: d) = none := rfl

lemma readNumAt_dash_true (d : List Char) :
    readNumAt true ('-' :: d) = (readUnsigned d).map (fun q => -q) := rfl

lemma scanNum_csd_false (d : List Char) (hne : d ≠ [])
    (h : ∀ c ∈ d, c.isDigit = true) :
    scanNum false (':' :: ' ' :: '-' :: d) = some (decOfDigits d) := by
  rw [scanNum_skip false ':' _ (by decide) (readNumAt_head_skip false ':' _ (by decide) (by decide))]
  rw [scanNum_skip false ' ' _ (by decide) (readNumAt_head_skip false ' ' _ (by decide) (by decide))]
  rw [scanNum_skip false '-' d (by decide) (readNumAt_dash_false d)]
  exact scanNum_digits false d hne h

lemma scanNum_csd_true (d : List Char) (hne : d ≠ [])
    (h : ∀ c ∈ d, c.isDigit = true) :
    scanNum true (':' :: ' ' :: '-' :: d) = some (-(decOfDigits d)) := by
  rw [scanNum_skip true ':' _ (by decide) (readNumAt_head_skip true ':' _ (by decide) (by decide))]
  rw [scanNum_skip true ' ' _ (by decide) (readNumAt_head_skip true ' ' _ (by decide) (by decide))]
  simp only [scanNum]
  rw [if_neg (by decide : ¬(('-' : Char) = '\n'))]
  have hr : readNumAt true ('-' :: d) = some (-(decOfDigits d)) := by
    rw [readNumAt_dash_true, readUnsigned_digits d hne h]
    rfl
  rw [hr]

lemma isPrefixOf_append_self (l t : List Char) : l.isPrefixOf (l ++ t) = true := by
  induction l with
  | nil => simp [List.isPrefixOf]
  | cons a as ih =>
      simp only [List.cons_append, List.isPrefixOf]
      simp [ih]

lemma searchNum_label_head (label : List Char) (neg : Bool) (tail : List Char) (q : ℚ)
    (hlab : label ≠ []) (hscan : scanNum neg tail = some q) :
    searchNum label neg (label ++ tail) = some q := by
  cases label with
  | nil => exact absurd rfl hlab
  | cons a as =>
      rw [List.cons_append]
      simp only [searchNum]
      have hp : (a :: as).isPrefixOf (a :: (as ++ tail)) = true := by
        rw [← List.cons_append]
        exact isPrefixOf_append_self (a :: as) tail
      rw [if_pos hp]
      have hdrop : (a :: (as ++ tail)).drop (a :: as).length = tail := by
        rw [← List.cons_append]
        exact List.drop_left (a :: as) tail
      rw [hdrop, hscan]

/-- Claim C5 (amended): for each numeric field the extraction searches for
the label followed (without crossing a line break) by a decimal number,
and absence of any match yields an undefined value; but only the IDEO
pattern carries `-?` — a minus sign before an RAI, HDR or PBR value is
skipped by the lazy gap and the value is extracted unsigned, while an
IDEO value keeps its sign. -/
theorem C5_numeric_extraction (d s : List Char) (hne : d ≠ [])
    (hdig : ∀ c ∈ d, c.isDigit = true) (hnod : ∀ c ∈ s, c.isDigit = false) :
    (extract (['R', 'A', 'I'] ++ (':' :: ' ' :: '-' :: d))).rai = some (decOfDigits d) ∧
    (extract (['I', 'D', 'E', 'O'] ++ (':' :: ' ' :: '-' :: d))).ideo = some (-(decOfDigits d)) ∧
    (extract (['H', 'D', 'R'] ++ (':' :: ' ' :: '-' :: d))).hdr = some (decOfDigits d) ∧
    (extract (['P', 'B', 'R'] ++ (':' :: ' ' :: '-' :: d))).pbr = some (decOfDigits d) ∧
    (extract s).rai = none ∧ (extract s).ideo = none ∧
    (extract s).hdr = none ∧ (extract s).pbr = none := by
  refine ⟨?_, ?_, ?_, ?_, ?_, ?_, ?_, ?_⟩
  · exact searchNum_label_head ['R', 'A', 'I'] false _ _ (by decide)
      (scanNum_csd_false d hne hdig)
  · exact searchNum_label_head ['I', 'D', 'E', 'O'] true _ _ (by decide)
      (scanNum_csd_true d hne hdig)
  · exact searchNum_label_head ['H', 'D', 'R'] false _ _ (by decide)
      (scanNum_csd_false d hne hdig)
  · exact searchNum_label_head ['P', 'B', 'R'] false _ _ (by decide)
      (scanNum_csd_false d hne hdig)
  · exact searchNum_no_digit ['R', 'A', 'I'] false s hnod
  · exact searchNum_no_digit ['I', 'D', 'E', 'O'] true s hnod
  · exact searchNum_no_digit ['H', 'D', 'R'] false s hnod
  · exact searchNum_no_digit ['P', 'B', 'R'] false s hnod

/-- Witness for C5 at the digit string `85` and a digit-free text. -/
theorem C5_numeric_extraction_witness :
    (extract (['R', 'A', 'I'] ++ (':' :: ' ' :: '-' :: ['8', '5']))).rai =
      some (decOfDigits ['8', '5']) ∧
    (extract (['I', 'D', 'E', 'O'] ++ (':' :: ' ' :: '-' :: ['8', '5']))).ideo =
      some (-(decOfDigits ['8', '5'])) ∧
    (extract (['H', 'D', 'R'] ++ (':' :: ' ' :: '-' :: ['8', '5']))).hdr =
      some (decOfDigits ['8', '5']) ∧
    (extract (['P', 'B', 'R'] ++ (':' :: ' ' :: '-' :: ['8', '5']))).pbr =
      some (decOfDigits ['8', '5']) ∧
    (extract "no numbers in this text".data).rai = none ∧
    (extract "no numbers in this text".data).ideo = none ∧
    (extract "no numbers in this text".data).hdr = none ∧
    (extract "no numbers in this text".data).pbr = none :=
  C5_numeric_extraction ['8', '5'] "no numbers in this text".data
    (by decide) (by decide) (by decide)

/-- Claim C5 counterexample: on the text `HDR: -5` the HDR extraction
returns `5`, not `-5` — the value's sign is dropped, contradicting the
claim that a negative decimal after any of the four labels is extracted
with its sign. -/
theorem C5_sign_dropped_counterexample :
    (extract "HDR: -5".data).hdr = some 5 ∧ (5 : ℚ) ≠ -5 := by
  refine ⟨by decide, by decide⟩

/-- Claim C6 (amended): on the §8.7 example text (real line breaks) the
four numeric fields extract to 85, 7, 9 and 8, but Deaths and Tagline
fall back to their defaults `"Unknown"` and `"Generated by GPT"` because
their patterns require the literal two-character terminator backslash-n,
which a line-break-separated text does not contain; with every mention of
PBR removed, PBR extracts to nothing and both commit actions refuse to
write, the sidebar one reporting the failure. -/
theorem C6_extraction_example :
    extract exampleReply.data =
      ⟨some 85, some 7, some 9, some 8, "Unknown", "Generated by GPT"⟩ ∧
    (extract exampleReplyNoPBR.data).pbr = none ∧
    chatCommit exampleReplyNoPBR "Query" "TS" [] [] = ([], [], []) ∧
    sidebarCommit exampleReplyNoPBR "Query" "TS" [] [] =
      ([], [], ["Could not parse all scores from GPT output."]) := by
  refine ⟨by decide, by decide, by decide, by decide⟩

/-- Claim C6 counterexample: on the §8.7 example text extraction does not
return Deaths `"500000"` or Tagline `"Iron Fist"` — both fall back to the
defaults. -/
theorem C6_deaths_tagline_counterexample :
    (extract exampleReply.data).deaths ≠ "500000" ∧
    (extract exampleReply.data).tagline ≠ "Iron Fist" := by
  refine ⟨by decide, by decide⟩

/-- Claim C3 counterexample: at a concrete reply missing PBR the chat
commit displays no message at all, so the failure is not reported to the
user (while the stores are indeed left unchanged). -/
theorem C3_no_failure_report_counterexample :
    (chatCommit exampleReplyNoPBR "Query" "TS" [] []).2.2 = [] := by decide
